import Mathlib

/-!
# Verification of `migrate_client.py`

A shallow embedding of the migration script `migrate_client.py` together with
proofs about it.

* Text is modelled as `List Char`.
* Every pattern in `NAMESPACE_REPLACEMENTS` is a regular expression in which
  the only metacharacter use is the escaped dot `\.` (matching a literal dot),
  and every replacement string is free of backreferences.  Hence
  `re.sub(pattern, repl, s)` coincides with the purely textual operation
  "replace every non-overlapping occurrence of the literal pattern, scanning
  left to right" which `replaceAll` below implements (via a structurally
  decreasing fuel argument so that it evaluates inside the kernel).
* The filesystem is modelled as a partial map from path strings to file
  contents, and the fallible operations (`os.makedirs`, reading, writing) are
  driven by an environment of failure oracles.  `os.makedirs` in the script is
  NOT guarded by `try`, so a failure there is modelled as a propagated
  exception (`StepResult.raised`), while read and write failures are caught.
-/

namespace MigrateClient

/-- One scanning step of `re.sub` with a literal pattern: if the pattern `p`
matches at the current position, emit the replacement `r` and continue after
the match, otherwise emit the current character and continue.  `fuel` is an
upper bound on the length of `s` making the recursion structural. -/
def replaceAllAux (p r : List Char) : Nat → List Char → List Char
  | 0, s => s
  | _ + 1, [] => []
  | n + 1, c :: cs =>
    if p ≠ [] ∧ p.isPrefixOf (c :: cs) then
      r ++ replaceAllAux p r n ((c :: cs).drop p.length)
    else
      c :: replaceAllAux p r n cs

/-- `re.sub` with a literal pattern `p` and literal replacement `r`:
replace all non-overlapping occurrences of `p` in `s`, leftmost first. -/
def replaceAll (p r s : List Char) : List Char :=
  replaceAllAux p r s.length s

/-- The `NAMESPACE_REPLACEMENTS` table of the script, with each regex pattern
written as the literal text it matches (the source escapes every dot). -/
def NAMESPACE_REPLACEMENTS : List (List Char × List Char) :=
  [ (("HartsysDatasetEditor.Client.Pages").toList,
     ("DatasetStudio.ClientApp.Features.Datasets.Pages").toList),
    (("HartsysDatasetEditor.Client.Components.Dataset").toList,
     ("DatasetStudio.ClientApp.Features.Datasets.Components").toList),
    (("HartsysDatasetEditor.Client.Components.Viewer").toList,
     ("DatasetStudio.ClientApp.Features.Datasets.Components").toList),
    (("HartsysDatasetEditor.Client.Components.Filter").toList,
     ("DatasetStudio.ClientApp.Features.Datasets.Components").toList),
    (("HartsysDatasetEditor.Client.Components.Dialogs").toList,
     ("DatasetStudio.ClientApp.Features.Datasets.Components").toList),
    (("HartsysDatasetEditor.Client.Components.Settings").toList,
     ("DatasetStudio.ClientApp.Features.Settings.Components").toList),
    (("HartsysDatasetEditor.Client.Components.Common").toList,
     ("DatasetStudio.ClientApp.Shared.Components").toList),
    (("HartsysDatasetEditor.Client.Layout").toList,
     ("DatasetStudio.ClientApp.Shared.Layout").toList),
    (("HartsysDatasetEditor.Client.Services.Api").toList,
     ("DatasetStudio.ClientApp.Services.ApiClients").toList),
    (("HartsysDatasetEditor.Client.Services.JsInterop").toList,
     ("DatasetStudio.ClientApp.Services.Interop").toList),
    (("HartsysDatasetEditor.Client.Services.StateManagement").toList,
     ("DatasetStudio.ClientApp.Services.StateManagement").toList),
    (("HartsysDatasetEditor.Client.Services").toList,
     ("DatasetStudio.ClientApp.Features.Datasets.Services").toList),
    (("HartsysDatasetEditor.Client.Extensions").toList,
     ("DatasetStudio.ClientApp.Extensions").toList),
    (("HartsysDatasetEditor.Client").toList,
     ("DatasetStudio.ClientApp").toList),
    (("HartsysDatasetEditor.Core.Models").toList,
     ("DatasetStudio.Core.DomainModels").toList),
    (("HartsysDatasetEditor.Core.Enums").toList,
     ("DatasetStudio.Core.Enumerations").toList),
    (("HartsysDatasetEditor.Core.Interfaces").toList,
     ("DatasetStudio.Core.Abstractions").toList),
    (("HartsysDatasetEditor.Core.Services").toList,
     ("DatasetStudio.Core.BusinessLogic").toList),
    (("HartsysDatasetEditor.Core.Services.Layouts").toList,
     ("DatasetStudio.Core.BusinessLogic.Layouts").toList),
    (("HartsysDatasetEditor.Core.Services.Parsers").toList,
     ("DatasetStudio.Core.BusinessLogic.Parsers").toList),
    (("HartsysDatasetEditor.Core.Services.Providers").toList,
     ("DatasetStudio.Core.BusinessLogic.Modality").toList),
    (("HartsysDatasetEditor.Core").toList,
     ("DatasetStudio.Core").toList),
    (("HartsysDatasetEditor.Contracts").toList,
     ("DatasetStudio.DTO").toList) ]

/-- Apply an ordered list of (pattern, replacement) rules to `content`,
each rule rewriting the cumulative result of the previous ones. -/
def applyRules (rules : List (List Char × List Char)) (content : List Char) : List Char :=
  rules.foldl (fun c pr => replaceAll pr.1 pr.2 c) content

/-- `update_content` of the script: the `for old_pattern, new_namespace in
NAMESPACE_REPLACEMENTS` loop calling `re.sub` once per rule. -/
def update_content (content : List Char) : List Char :=
  applyRules NAMESPACE_REPLACEMENTS content

/-- The rule table with the three specific `Core.Services.*` rules (indices
18, 19, 20: Layouts, Parsers, Providers) removed. -/
def NAMESPACE_REPLACEMENTS_noSpecific : List (List Char × List Char) :=
  NAMESPACE_REPLACEMENTS.take 18 ++ NAMESPACE_REPLACEMENTS.drop 21

/-- `update_content` computed without the three specific `Core.Services.*`
rules; compared with `update_content` in the refinement claim C9. -/
def update_content_noSpecific (content : List Char) : List Char :=
  applyRules NAMESPACE_REPLACEMENTS_noSpecific content

/-! ## Filesystem model -/

/-- `SRC_BASE` constant of the script. -/
def SRC_BASE : String :=
  "c:\\Users\\kaleb\\OneDrive\\Desktop\\Projects\\DatasetEditor\\src\\HartsysDatasetEditor.Client"

/-- `DEST_BASE` constant of the script. -/
def DEST_BASE : String :=
  "c:\\Users\\kaleb\\OneDrive\\Desktop\\Projects\\DatasetEditor\\src\\ClientApp"

/-- The `FILE_MAPPINGS` table of the script:
`(source_relative_path, dest_relative_path)` pairs, in declaration order. -/
def FILE_MAPPINGS : List (String × String) :=
  [ ("Pages/MyDatasets.razor.cs", "Features/Datasets/Pages/DatasetLibrary.razor.cs"),
    ("Pages/DatasetViewer.razor", "Features/Datasets/Pages/DatasetViewer.razor"),
    ("Pages/DatasetViewer.razor.cs", "Features/Datasets/Pages/DatasetViewer.razor.cs"),
    ("Pages/CreateDataset.razor", "Features/Datasets/Pages/CreateDataset.razor"),
    ("Pages/AITools.razor", "Features/Datasets/Pages/AITools.razor"),
    ("Pages/Settings.razor", "Features/Settings/Pages/Settings.razor"),
    ("Components/Dataset/DatasetInfo.razor", "Features/Datasets/Components/DatasetInfo.razor"),
    ("Components/Dataset/DatasetStats.razor", "Features/Datasets/Components/DatasetStats.razor"),
    ("Components/Dataset/DatasetUploader.razor", "Features/Datasets/Components/DatasetUploader.razor"),
    ("Components/Dataset/DatasetUploader.razor.cs", "Features/Datasets/Components/DatasetUploader.razor.cs"),
    ("Components/Dataset/HuggingFaceDatasetOptions.razor", "Features/Datasets/Components/HuggingFaceDatasetOptions.razor"),
    ("Components/Viewer/ImageCard.razor", "Features/Datasets/Components/ImageCard.razor"),
    ("Components/Viewer/ImageCard.razor.cs", "Features/Datasets/Components/ImageCard.razor.cs"),
    ("Components/Viewer/ImageDetailPanel.razor", "Features/Datasets/Components/ImageDetailPanel.razor"),
    ("Components/Viewer/ImageDetailPanel.razor.cs", "Features/Datasets/Components/ImageDetailPanel.razor.cs"),
    ("Components/Viewer/ImageGrid.razor", "Features/Datasets/Components/ImageGrid.razor"),
    ("Components/Viewer/ImageGrid.razor.cs", "Features/Datasets/Components/ImageGrid.razor.cs"),
    ("Components/Viewer/ImageList.razor", "Features/Datasets/Components/ImageList.razor"),
    ("Components/Viewer/ImageLightbox.razor", "Features/Datasets/Components/ImageLightbox.razor"),
    ("Components/Viewer/ViewerContainer.razor", "Features/Datasets/Components/ViewerContainer.razor"),
    ("Components/Viewer/ViewerContainer.razor.cs", "Features/Datasets/Components/ViewerContainer.razor.cs"),
    ("Components/Filter/FilterPanel.razor", "Features/Datasets/Components/FilterPanel.razor"),
    ("Components/Filter/FilterPanel.razor.cs", "Features/Datasets/Components/FilterPanel.razor.cs"),
    ("Components/Filter/DateRangeFilter.razor", "Features/Datasets/Components/DateRangeFilter.razor"),
    ("Components/Filter/FilterChips.razor", "Features/Datasets/Components/FilterChips.razor"),
    ("Components/Filter/SearchBar.razor", "Features/Datasets/Components/SearchBar.razor"),
    ("Components/Dialogs/AddTagDialog.razor", "Features/Datasets/Components/AddTagDialog.razor"),
    ("Components/Settings/ApiKeySettingsPanel.razor", "Features/Settings/Components/ApiKeySettingsPanel.razor"),
    ("Components/Settings/LanguageSelector.razor", "Features/Settings/Components/LanguageSelector.razor"),
    ("Components/Settings/ThemeSelector.razor", "Features/Settings/Components/ThemeSelector.razor"),
    ("Components/Settings/ViewPreferences.razor", "Features/Settings/Components/ViewPreferences.razor"),
    ("Components/Common/ConfirmDialog.razor", "Shared/Components/ConfirmDialog.razor"),
    ("Components/Common/DatasetSwitcher.razor", "Shared/Components/DatasetSwitcher.razor"),
    ("Components/Common/EmptyState.razor", "Shared/Components/EmptyState.razor"),
    ("Components/Common/ErrorBoundary.razor", "Shared/Components/ErrorBoundary.razor"),
    ("Components/Common/LayoutSwitcher.razor", "Shared/Components/LayoutSwitcher.razor"),
    ("Components/Common/LoadingIndicator.razor", "Shared/Components/LoadingIndicator.razor"),
    ("Layout/MainLayout.razor", "Shared/Layout/MainLayout.razor"),
    ("Layout/MainLayout.razor.cs", "Shared/Layout/MainLayout.razor.cs"),
    ("Layout/NavMenu.razor", "Shared/Layout/NavMenu.razor"),
    ("Layout/NavMenu.razor.cs", "Shared/Layout/NavMenu.razor.cs"),
    ("Services/Api/DatasetApiClient.cs", "Services/ApiClients/DatasetApiClient.cs"),
    ("Services/Api/DatasetApiOptions.cs", "Services/ApiClients/DatasetApiOptions.cs"),
    ("Services/DatasetIndexedDbCache.cs", "Services/Caching/IndexedDbCache.cs"),
    ("Services/DatasetCacheService.cs", "Features/Datasets/Services/DatasetCacheService.cs"),
    ("Services/ItemEditService.cs", "Features/Datasets/Services/ItemEditService.cs"),
    ("Services/ImageUrlHelper.cs", "Features/Datasets/Services/ImageUrlHelper.cs"),
    ("Services/JsInterop/FileReaderInterop.cs", "Services/Interop/FileReaderInterop.cs"),
    ("Services/JsInterop/ImageLazyLoadInterop.cs", "Services/Interop/ImageLazyLoadInterop.cs"),
    ("Services/JsInterop/IndexedDbInterop.cs", "Services/Interop/IndexedDbInterop.cs"),
    ("Services/JsInterop/LocalStorageInterop.cs", "Services/Interop/LocalStorageInterop.cs"),
    ("Services/NotificationService.cs", "Shared/Services/NotificationService.cs"),
    ("Services/NavigationService.cs", "Shared/Services/NavigationService.cs"),
    ("Services/StateManagement/ApiKeyState.cs", "Services/StateManagement/ApiKeyState.cs"),
    ("Services/StateManagement/AppState.cs", "Services/StateManagement/AppState.cs"),
    ("Services/StateManagement/DatasetState.cs", "Services/StateManagement/DatasetState.cs"),
    ("Services/StateManagement/FilterState.cs", "Services/StateManagement/FilterState.cs"),
    ("Services/StateManagement/ViewState.cs", "Services/StateManagement/ViewState.cs"),
    ("Extensions/ServiceCollectionExtensions.cs", "Extensions/ServiceCollectionExtensions.cs") ]

/-- `os.path.join(base, rel)` on Windows for a base without a trailing
separator: base, one backslash, rel. -/
def joinPath (base rel : String) : String := base ++ "\\" ++ rel

/-- The absolute source path of a mapping (`src_path` in the script). -/
def srcPath (rel : String) : String := joinPath SRC_BASE rel

/-- The absolute destination path of a mapping (`dest_path` in the script). -/
def destPath (rel : String) : String := joinPath DEST_BASE rel

/-- Windows path separators. -/
def isSep (c : Char) : Bool := c = '/' || c = '\\'

/-- `os.path.dirname`: everything before the last path separator
(`dest_dir` in the script). -/
def dirname (p : String) : String :=
  String.mk (((p.data.reverse.dropWhile (fun c => !isSep c)).drop 1).reverse)

/-- The filesystem: a partial map from absolute paths to file contents. -/
def FS : Type := String → Option (List Char)

/-- Write (or overwrite) one file. -/
def updateFS (fs : FS) (p : String) (v : List Char) : FS :=
  fun q => if q = p then some v else fs q

/-- Failure oracles for the fallible filesystem operations: `mkdirFails d`
says `os.makedirs(d, exist_ok=True)` raises, `readFails p` says opening and
reading `p` raises, `writeFails p` says opening and writing `p` raises. -/
structure Env where
  mkdirFails : String → Bool
  readFails : String → Bool
  writeFails : String → Bool

/-- Outcome of `migrate_file`: a normal boolean return with the resulting
filesystem and the printed lines, or an exception propagated to the caller. -/
inductive StepResult where
  | ok (ret : Bool) (fs : FS) (log : List String)
  | raised (fs : FS)

/-- `migrate_file(src_rel, dest_rel)` of the script: the existence check, the
unguarded `os.makedirs` call, the guarded read, `update_content`, and the
guarded write, in source order.  Error log lines elide the exception detail
interpolated by the script. -/
def migrate_file (env : Env) (fs : FS) (src_rel dest_rel : String) : StepResult :=
  match fs (srcPath src_rel) with
  | none => .ok false fs ["  [SKIP] Source not found: " ++ src_rel]
  | some content =>
    if env.mkdirFails (dirname (destPath dest_rel)) then
      .raised fs
    else if env.readFails (srcPath src_rel) then
      .ok false fs ["  [ERROR] Failed to read " ++ src_rel]
    else if env.writeFails (destPath dest_rel) then
      .ok false fs ["  [ERROR] Failed to write " ++ dest_rel]
    else
      .ok true (updateFS fs (destPath dest_rel) (update_content content))
        ["  [OK] " ++ src_rel ++ " -> " ++ dest_rel]

/-- Outcome of `main()`: normal completion with the two counters, or an
uncaught exception. -/
inductive RunResult where
  | finished (succ fail : Nat) (fs : FS) (log : List String)
  | raised (fs : FS) (log : List String)

/-- The final summary line printed by `main()`. -/
def summaryLine (s f : Nat) : String :=
  "Migration complete: " ++ toString s ++ " succeeded, " ++ toString f ++ " failed"

/-- The `for src_rel, dest_rel in FILE_MAPPINGS` loop of `main()`, threading
the filesystem, the two counters and the console log; an uncaught exception
aborts the loop. -/
def mainGo (env : Env) : List (String × String) → FS → Nat → Nat → List String → RunResult
  | [], fs, s, f, log => .finished s f fs (log ++ [summaryLine s f])
  | m :: ms, fs, s, f, log =>
    match migrate_file env fs m.1 m.2 with
    | .ok true fs2 l => mainGo env ms fs2 (s + 1) f (log ++ l)
    | .ok false fs2 l => mainGo env ms fs2 s (f + 1) (log ++ l)
    | .raised fs2 => .raised fs2 log

/-- `main()` run on a given mapping list (banner lines elided). -/
def runMainOn (env : Env) (ms : List (String × String)) (fs : FS) : RunResult :=
  mainGo env ms fs 0 0 []

/-- `main()` of the script. -/
def runMain (env : Env) (fs : FS) : RunResult :=
  runMainOn env FILE_MAPPINGS fs

/-- Process exit status: Python exits with 0 when `main()` returns normally,
and with 1 on an uncaught exception. -/
def exitCode (env : Env) (fs : FS) : Nat :=
  match runMain env fs with
  | .finished _ _ _ _ => 0
  | .raised _ _ => 1

/-- The filesystem component of a run outcome. -/
def fsOf : RunResult → FS
  | .finished _ _ fs _ => fs
  | .raised fs _ => fs

/-- The filesystem effect of one `migrate_file` call. -/
def stepFS (env : Env) (m : String × String) (fs : FS) : FS :=
  match migrate_file env fs m.1 m.2 with
  | .ok _ fs2 _ => fs2
  | .raised fs2 => fs2

/-- Filesystem state after running the loop body on every mapping in order
(no abort: used to compare completed runs). -/
def runFS (env : Env) (ms : List (String × String)) (fs : FS) : FS :=
  ms.foldl (fun acc m => stepFS env m acc) fs

/-- What one mapping writes: `some v` when the migration succeeds with
rewritten content `v`, `none` when it skips or fails. -/
def writeResult (env : Env) (fs : FS) (m : String × String) : Option (List Char) :=
  match fs (srcPath m.1) with
  | none => none
  | some content =>
    if env.mkdirFails (dirname (destPath m.2)) then none
    else if env.readFails (srcPath m.1) then none
    else if env.writeFails (destPath m.2) then none
    else some (update_content content)

/-- Number of mappings whose source file exists. -/
def presentCount (fs : FS) (ms : List (String × String)) : Nat :=
  (ms.filter (fun m => (fs (srcPath m.1)).isSome)).length

/-- Number of mappings whose source file is missing. -/
def missingCount (fs : FS) (ms : List (String × String)) : Nat :=
  (ms.filter (fun m => (fs (srcPath m.1)).isNone)).length

/-- Environment in which no filesystem operation fails. -/
def benignEnv : Env where
  mkdirFails := fun _ => false
  readFails := fun _ => false
  writeFails := fun _ => false

/-- An environment in which creating the directory of the first mapping's
destination fails (e.g. permission denied) and nothing else fails. -/
def mkdirFailEnv : Env where
  mkdirFails := fun d =>
    d == dirname (destPath ("Features/Datasets/Pages/DatasetLibrary.razor.cs"))
  readFails := fun _ => false
  writeFails := fun _ => false

/-- A source tree containing the first mapping's source file. -/
def oneFileFS : FS := fun p =>
  if p = srcPath ("Pages/MyDatasets.razor.cs") then
    some (("namespace HartsysDatasetEditor.Client.Pages;").toList)
  else none

/-- A source tree containing the first mapping's source file and the
Settings-page source file. -/
def twoFileFS : FS := fun p =>
  if p = srcPath ("Pages/MyDatasets.razor.cs") then some (("a").toList)
  else if p = srcPath ("Pages/Settings.razor") then some (("b").toList)
  else none

/-- `FILE_MAPPINGS` with its first six entries reversed: a concrete
permutation of the mapping table. -/
def reorderedMappings : List (String × String) :=
  (FILE_MAPPINGS.take 6).reverse ++ FILE_MAPPINGS.drop 6

/-! ## Basic properties of `replaceAll` -/

theorem replaceAllAux_fuel (p r : List Char) :
    ∀ n m s, s.length ≤ n → s.length ≤ m →
      replaceAllAux p r n s = replaceAllAux p r m s := by
  intro n
  induction n with
  | zero =>
    intro m s hn _
    have hs : s = [] := List.eq_nil_of_length_eq_zero (Nat.le_zero.mp hn)
    subst hs
    cases m <;> rfl
  | succ n ih =>
    intro m s hn hm
    cases s with
    | nil => cases m <;> rfl
    | cons c cs =>
      cases m with
      | zero => simp at hm
      | succ m =>
        by_cases h : p ≠ [] ∧ p.isPrefixOf (c :: cs)
        · have hplen : 1 ≤ p.length := by
            cases p with
            | nil => exact absurd rfl h.1
            | cons a as => simp
          have hlen : ((c :: cs).drop p.length).length ≤ n := by
            rw [List.length_drop]
            omega
          have hlen2 : ((c :: cs).drop p.length).length ≤ m := by
            rw [List.length_drop]
            omega
          simp only [replaceAllAux, if_pos h]
          rw [ih m _ hlen hlen2]
        · simp only [replaceAllAux, if_neg h]
          have h1 : cs.length ≤ n := by simpa using hn
          have h2 : cs.length ≤ m := by simpa using hm
          rw [ih m cs h1 h2]

theorem replaceAll_nil (p r : List Char) : replaceAll p r [] = [] := rfl

theorem replaceAll_cons_pos {p : List Char} (r : List Char) {c : Char} {cs : List Char}
    (hp : p ≠ []) (hpre : p.isPrefixOf (c :: cs)) :
    replaceAll p r (c :: cs) = r ++ replaceAll p r ((c :: cs).drop p.length) := by
  have hplen : 1 ≤ p.length := by
    cases p with
    | nil => exact absurd rfl hp
    | cons a as => simp
  show replaceAllAux p r (cs.length + 1) (c :: cs) = _
  simp only [replaceAllAux, if_pos (And.intro hp hpre)]
  congr 1
  apply replaceAllAux_fuel
  · rw [List.length_drop, List.length_cons]; omega
  · exact le_rfl

theorem replaceAll_cons_neg {p : List Char} (r : List Char) {c : Char} {cs : List Char}
    (h : ¬(p ≠ [] ∧ p.isPrefixOf (c :: cs))) :
    replaceAll p r (c :: cs) = c :: replaceAll p r cs := by
  show replaceAllAux p r (cs.length + 1) (c :: cs) = _
  simp only [replaceAllAux, if_neg h]
  rfl

/-- A rule whose pattern occurs nowhere in the text is a no-op. -/
theorem replaceAll_of_no_occ {p : List Char} (r : List Char) :
    ∀ {s : List Char}, ¬ p <:+: s → replaceAll p r s = s := by
  intro s
  induction s with
  | nil => intro _; rfl
  | cons c cs ih =>
    intro h
    have hp : p ≠ [] := by
      intro he
      exact h (he ▸ List.nil_infix)
    have hnpre : ¬ p.isPrefixOf (c :: cs) := by
      intro hb
      have hb2 := List.isPrefixOf_iff_prefix.mp hb
      exact h hb2.isInfix
    rw [replaceAll_cons_neg r (fun hand => hnpre hand.2)]
    have : ¬ p <:+: cs := fun hin => h (List.infix_cons hin)
    rw [ih this]

/-- `replaceAll` rewrites the leftmost occurrence of the pattern and then
continues scanning strictly after it: all further (non-overlapping)
occurrences are rewritten as well, not just the first one. -/
theorem replaceAll_leftmost {p : List Char} (r : List Char) (hp : p ≠ []) :
    ∀ (a b : List Char),
      (∀ i, i < a.length → ¬ p <+: ((a ++ p ++ b).drop i)) →
      replaceAll p r (a ++ p ++ b) = a ++ r ++ replaceAll p r b := by
  intro a
  induction a with
  | nil =>
    intro b _
    cases hq : p with
    | nil => exact absurd hq hp
    | cons ph pt =>
      have hpre : p.isPrefixOf (p ++ b) := List.isPrefixOf_iff_prefix.mpr (List.prefix_append p b)
      rw [hq] at hpre
      simp only [List.nil_append, hq, List.cons_append]
      rw [replaceAll_cons_pos r (by simp) (by rw [List.cons_append] at hpre; exact hpre)]
      have : ((ph :: pt) ++ b).drop (ph :: pt).length = b := List.drop_left _ _
      simp only [List.cons_append] at this
      rw [this]
  | cons c a ih =>
    intro b hleft
    have h0 : ¬ p <+: (c :: (a ++ p ++ b)) := by
      have := hleft 0 (by simp)
      simpa using this
    have hnpre : ¬(p ≠ [] ∧ p.isPrefixOf (c :: (a ++ p ++ b))) := by
      rintro ⟨_, hb⟩
      have hb2 := List.isPrefixOf_iff_prefix.mp hb
      exact h0 hb2
    simp only [List.cons_append]
    rw [replaceAll_cons_neg r hnpre]
    have hleft2 : ∀ i, i < a.length → ¬ p <+: ((a ++ p ++ b).drop i) := by
      intro i hi
      have := hleft (i + 1) (by simp only [List.length_cons]; omega)
      simpa using this
    rw [ih b hleft2]

/-- C4.  `update_content` applies the `NAMESPACE_REPLACEMENTS` rules
sequentially in list order, each rule scanning the entire cumulative result of
the prior rules; each rule replaces all non-overlapping matches of its literal
pattern, not just the first (the leftmost match is rewritten and scanning
resumes after it), and a pattern with zero matches is a no-op for that rule. -/
theorem update_content_sequential_all_matches :
    (∀ content, update_content content =
      NAMESPACE_REPLACEMENTS.foldl (fun c pr => replaceAll pr.1 pr.2 c) content) ∧
    (∀ (p r s : List Char), ¬ p <:+: s → replaceAll p r s = s) ∧
    (∀ (p r a b : List Char), p ≠ [] →
      (∀ i, i < a.length → ¬ p <+: ((a ++ p ++ b).drop i)) →
      replaceAll p r (a ++ p ++ b) = a ++ r ++ replaceAll p r b) :=
  ⟨fun _ => rfl,
   fun _ r _ h => replaceAll_of_no_occ r h,
   fun _ r a b hp hleft => replaceAll_leftmost r hp a b hleft⟩

/-- Witness for C4 on concrete data: a zero-match rule is a no-op, and a rule
matching twice rewrites the leftmost match and continues on the remainder. -/
theorem update_content_sequential_all_matches_witness :
    (replaceAll (("q").toList) (("z").toList) (("xy").toList) = ("xy").toList) ∧
    (replaceAll (("ab").toList) (("z").toList)
        ((("x").toList) ++ (("ab").toList) ++ (("cab").toList)) =
      (("x").toList) ++ (("z").toList) ++
        replaceAll (("ab").toList) (("z").toList) (("cab").toList)) :=
  ⟨update_content_sequential_all_matches.2.1 _ _ _ (by decide),
   update_content_sequential_all_matches.2.2 _ _ _ _ (by decide) (by decide)⟩

/-! ## Occurrence bookkeeping helpers -/

theorem eq_head_cons_tail {p : List Char} {h : Char} (hph : p.head? = some h) :
    p = h :: p.tail := by
  cases p with
  | nil => simp at hph
  | cons a t =>
    rw [List.head?_cons] at hph
    injection hph with ha
    rw [ha]
    rfl

/-- If `p` begins with `h` and is a prefix of `c :: l` then `h = c` and the
tail of `p` is a prefix of `l`. -/
theorem cons_prefix_head {p : List Char} {h c : Char} {l : List Char}
    (hph : p.head? = some h) (hpre : p <+: c :: l) : h = c ∧ p.tail <+: l := by
  have hpd := eq_head_cons_tail hph
  rw [hpd] at hpre
  exact List.cons_prefix_cons.mp hpre

theorem head_mem_of_occ {p t : List Char} {h : Char}
    (hph : p.head? = some h) (hin : p <:+: t) : h ∈ t := by
  have hpd := eq_head_cons_tail hph
  exact hin.subset (by rw [hpd]; exact List.mem_cons_self h p.tail)

/-- An occurrence of `p` inside `u ++ T` cannot start inside `u` when the
first character of `p` does not occur in `u`; it must lie inside `T`. -/
theorem occ_append_right {p : List Char} {h : Char} (hph : p.head? = some h) :
    ∀ (u : List Char), h ∉ u → ∀ {T : List Char}, p <:+: u ++ T → p <:+: T := by
  intro u
  induction u with
  | nil =>
    intro _ T hin
    simpa using hin
  | cons c cu ih =>
    intro hu T hin
    rw [List.cons_append] at hin
    rcases List.infix_cons_iff.mp hin with hpre | hin2
    · exfalso
      have hpd := eq_head_cons_tail hph
      rw [hpd] at hpre
      rcases List.cons_prefix_cons.mp hpre with ⟨hh, _⟩
      exact hu (by rw [hh]; exact List.mem_cons_self c cu)
    · exact ih (fun hm => hu (List.mem_cons_of_mem c hm)) hin2

theorem pre_append_cases {q u T : List Char} (hq : q <+: u ++ T) :
    q <+: u ∨ u <+: q := by
  rcases Nat.le_total q.length u.length with hle | hle
  · exact Or.inl (List.prefix_of_prefix_length_le hq (List.prefix_append u T) hle)
  · exact Or.inr (List.prefix_of_prefix_length_le (List.prefix_append u T) hq hle)

theorem drop_ne_nil_of_lt {p : List Char} {m : Nat} (hm : m < p.length) :
    p.drop m ≠ [] := by
  intro hnil
  have := congrArg List.length hnil
  rw [List.length_drop] at this
  simp at this
  omega

/-! ## No-recreation: replacing `p` by `r` removes every occurrence of `p`

Conditions: the head character of `p` does not occur in `r` (so no occurrence
of `p` can start inside a replacement copy), and no proper suffix of `p` is
prefix-compatible with `r` (so no occurrence can run from untouched text into
a replacement copy). -/

theorem replaceAllAux_no_recreate {p r : List Char} {h : Char}
    (hph : p.head? = some h) (hhr : h ∉ r)
    (hcond : ∀ m, m < p.length → 1 ≤ m → ¬ p.drop m <+: r ∧ ¬ r <+: p.drop m) :
    ∀ (n : Nat) (s : List Char), s.length ≤ n →
      ¬ p <:+: replaceAllAux p r n s ∧
      (∀ m, m < p.length → 1 ≤ m →
        p.drop m <+: replaceAllAux p r n s → p.drop m <+: s) := by
  have hpd := eq_head_cons_tail hph
  have hpne : p ≠ [] := by rw [hpd]; simp
  have hplen : 1 ≤ p.length := by rw [hpd]; simp
  intro n
  induction n with
  | zero =>
    intro s hn
    have hs : s = [] := List.eq_nil_of_length_eq_zero (Nat.le_zero.mp hn)
    subst hs
    constructor
    · intro hin
      simp only [replaceAllAux] at hin
      have h0 : p = [] := by simpa using hin
      exact hpne h0
    · intro m hm _ hq
      exfalso
      simp only [replaceAllAux] at hq
      have h0 : p.length ≤ m := by simpa using hq
      omega
  | succ n ih =>
    intro s hn
    cases s with
    | nil =>
      constructor
      · intro hin
        simp only [replaceAllAux] at hin
        have h0 : p = [] := by simpa using hin
        exact hpne h0
      · intro m hm _ hq
        exfalso
        simp only [replaceAllAux] at hq
        have h0 : p.length ≤ m := by simpa using hq
        omega
    | cons c cs =>
      rw [List.length_cons] at hn
      by_cases hbr : p ≠ [] ∧ p.isPrefixOf (c :: cs)
      · have hdroplen : ((c :: cs).drop p.length).length ≤ n := by
          rw [List.length_drop, List.length_cons]
          omega
        obtain ⟨ih1, ih2⟩ := ih ((c :: cs).drop p.length) hdroplen
        simp only [replaceAllAux, if_pos hbr]
        constructor
        · intro hin
          exact ih1 (occ_append_right hph r hhr hin)
        · intro m hm h1m hq
          exfalso
          rcases pre_append_cases hq with hc1 | hc2
          · exact (hcond m hm h1m).1 hc1
          · exact (hcond m hm h1m).2 hc2
      · have hcslen : cs.length ≤ n := by simpa using hn
        obtain ⟨ih1, ih2⟩ := ih cs hcslen
        have hnpre : ¬ p <+: (c :: cs) := by
          intro hb
          exact hbr ⟨hpne, List.isPrefixOf_iff_prefix.mpr hb⟩
        simp only [replaceAllAux, if_neg hbr]
        constructor
        · intro hin
          rcases List.infix_cons_iff.mp hin with hpre | hin2
          · obtain ⟨hh, hpt⟩ := cons_prefix_head hph hpre
            cases hte : p.tail with
            | nil =>
              apply hnpre
              rw [hpd, hte, hh]
              exact List.cons_prefix_cons.mpr ⟨rfl, List.nil_prefix⟩
            | cons q qt =>
              have h1lt : 1 < p.length := by
                rw [hpd, hte]
                simp
              have hdrop1 : p.drop 1 = p.tail := List.drop_one p
              have : p.drop 1 <+: cs := by
                apply ih2 1 h1lt le_rfl
                rw [hdrop1]
                exact hpt
              apply hnpre
              rw [hpd, hh]
              apply List.cons_prefix_cons.mpr
              exact ⟨rfl, by rw [← hdrop1]; exact this⟩
          · exact ih1 hin2
        · intro m hm h1m hq
          cases hq2 : p.drop m with
          | nil => exact absurd hq2 (drop_ne_nil_of_lt hm)
          | cons qh qt =>
            rw [hq2] at hq
            rcases List.cons_prefix_cons.mp hq with ⟨hqh, hqt⟩
            have hqt2 : p.drop (m + 1) = qt := by
              rw [← List.tail_drop, hq2]
              rfl
            by_cases hm1 : m + 1 < p.length
            · have hqtcs : qt <+: cs := by
                rw [← hqt2]
                exact ih2 (m + 1) hm1 (by omega) (by rw [hqt2]; exact hqt)
              exact List.cons_prefix_cons.mpr ⟨hqh, hqtcs⟩
            · have hqtnil : qt = [] := by
                rw [← hqt2]
                exact List.drop_eq_nil_of_le (by omega)
              rw [hqtnil]
              exact List.cons_prefix_cons.mpr ⟨hqh, List.nil_prefix⟩

/-- Replacing the (possibly different) pattern `p'` by `r'` cannot create a new
occurrence of `p`: any occurrence of `p` in the output was already present in
the input, under the same head/overlap conditions between `p` and `r'`. -/
theorem replaceAllAux_transfer {p' r' p : List Char} {h : Char}
    (hph : p.head? = some h) (hhr : h ∉ r')
    (hcond : ∀ m, m < p.length → 1 ≤ m → ¬ p.drop m <+: r' ∧ ¬ r' <+: p.drop m) :
    ∀ (n : Nat) (s : List Char), s.length ≤ n →
      (p <:+: replaceAllAux p' r' n s → p <:+: s) ∧
      (∀ m, m < p.length → 1 ≤ m →
        p.drop m <+: replaceAllAux p' r' n s → p.drop m <+: s) := by
  have hpd := eq_head_cons_tail hph
  have hplen : 1 ≤ p.length := by rw [hpd]; simp
  intro n
  induction n with
  | zero =>
    intro s hn
    have hs : s = [] := List.eq_nil_of_length_eq_zero (Nat.le_zero.mp hn)
    subst hs
    exact ⟨fun hin => by simpa only [replaceAllAux] using hin,
           fun m _ _ hq => by simpa only [replaceAllAux] using hq⟩
  | succ n ih =>
    intro s hn
    cases s with
    | nil =>
      exact ⟨fun hin => by simpa only [replaceAllAux] using hin,
             fun m _ _ hq => by simpa only [replaceAllAux] using hq⟩
    | cons c cs =>
      rw [List.length_cons] at hn
      by_cases hbr : p' ≠ [] ∧ p'.isPrefixOf (c :: cs)
      · have hplen2 : 1 ≤ p'.length := by
          cases hp2 : p' with
          | nil => exact absurd hp2 hbr.1
          | cons a t => simp
        have hdroplen : ((c :: cs).drop p'.length).length ≤ n := by
          rw [List.length_drop, List.length_cons]
          omega
        obtain ⟨ih1, ih2⟩ := ih ((c :: cs).drop p'.length) hdroplen
        simp only [replaceAllAux, if_pos hbr]
        constructor
        · intro hin
          have h1 : p <:+: (c :: cs).drop p'.length :=
            ih1 (occ_append_right hph r' hhr hin)
          have hsuf : (c :: cs).drop p'.length <:+ (c :: cs) := List.drop_suffix _ _
          exact h1.trans hsuf.isInfix
        · intro m hm h1m hq
          exfalso
          rcases pre_append_cases hq with hc1 | hc2
          · exact (hcond m hm h1m).1 hc1
          · exact (hcond m hm h1m).2 hc2
      · have hcslen : cs.length ≤ n := by omega
        obtain ⟨ih1, ih2⟩ := ih cs hcslen
        simp only [replaceAllAux, if_neg hbr]
        constructor
        · intro hin
          rcases List.infix_cons_iff.mp hin with hpre | hin2
          · obtain ⟨hh, hpt⟩ := cons_prefix_head hph hpre
            cases hte : p.tail with
            | nil =>
              have hpcs : p <+: c :: cs := by
                rw [hpd, hte, hh]
                exact List.cons_prefix_cons.mpr ⟨rfl, List.nil_prefix⟩
              exact hpcs.isInfix
            | cons q qt =>
              have h1lt : 1 < p.length := by rw [hpd, hte]; simp
              have hdrop1 : p.drop 1 = p.tail := List.drop_one p
              have hptcs : p.drop 1 <+: cs := by
                apply ih2 1 h1lt le_rfl
                rw [hdrop1]
                exact hpt
              have hpcs : p <+: c :: cs := by
                rw [hpd, hh]
                exact List.cons_prefix_cons.mpr ⟨rfl, by rw [← hdrop1]; exact hptcs⟩
              exact hpcs.isInfix
          · exact List.infix_cons (ih1 hin2)
        · intro m hm h1m hq
          cases hq2 : p.drop m with
          | nil => exact absurd hq2 (drop_ne_nil_of_lt hm)
          | cons qh qt =>
            rw [hq2] at hq
            rcases List.cons_prefix_cons.mp hq with ⟨hqh, hqt⟩
            have hqt2 : p.drop (m + 1) = qt := by
              rw [← List.tail_drop, hq2]
              rfl
            by_cases hm1 : m + 1 < p.length
            · have hqtcs : qt <+: cs := by
                rw [← hqt2]
                exact ih2 (m + 1) hm1 (by omega) (by rw [hqt2]; exact hqt)
              exact List.cons_prefix_cons.mpr ⟨hqh, hqtcs⟩
            · have hqtnil : qt = [] := by
                rw [← hqt2]
                exact List.drop_eq_nil_of_le (by omega)
              rw [hqtnil]
              exact List.cons_prefix_cons.mpr ⟨hqh, List.nil_prefix⟩

/-- After `replaceAll p r s`, the pattern `p` occurs nowhere (conditions as in
`replaceAllAux_no_recreate`). -/
theorem replaceAll_no_occurrence {p r : List Char} {h : Char}
    (hph : p.head? = some h) (hhr : h ∉ r)
    (hcond : ∀ m, m < p.length → 1 ≤ m → ¬ p.drop m <+: r ∧ ¬ r <+: p.drop m)
    (s : List Char) : ¬ p <:+: replaceAll p r s :=
  (replaceAllAux_no_recreate hph hhr hcond s.length s le_rfl).1

/-- Any occurrence of `p` after `replaceAll p' r' s` was already in `s`. -/
theorem replaceAll_transfer {p' r' p : List Char} {h : Char}
    (hph : p.head? = some h) (hhr : h ∉ r')
    (hcond : ∀ m, m < p.length → 1 ≤ m → ¬ p.drop m <+: r' ∧ ¬ r' <+: p.drop m)
    {s : List Char} (hin : p <:+: replaceAll p' r' s) : p <:+: s :=
  (replaceAllAux_transfer hph hhr hcond s.length s le_rfl).1 hin

/-! ## Rule-list combinators -/

theorem applyRules_nil (t : List Char) : applyRules [] t = t := rfl

theorem applyRules_cons (pr : List Char × List Char)
    (rest : List (List Char × List Char)) (t : List Char) :
    applyRules (pr :: rest) t = applyRules rest (replaceAll pr.1 pr.2 t) := rfl

theorem applyRules_cons2 (p r : List Char) (rest : List (List Char × List Char))
    (t : List Char) :
    applyRules ((p, r) :: rest) t = applyRules rest (replaceAll p r t) := rfl

theorem applyRules_append (r1 r2 : List (List Char × List Char)) (t : List Char) :
    applyRules (r1 ++ r2) t = applyRules r2 (applyRules r1 t) := by
  simp only [applyRules, List.foldl_append]

/-- A block of rules none of whose patterns occurs in `t` leaves `t` alone. -/
theorem applyRules_noop {rules : List (List Char × List Char)} {t : List Char}
    (hno : ∀ pr ∈ rules, ¬ pr.1 <:+: t) : applyRules rules t = t := by
  induction rules with
  | nil => rfl
  | cons pr rest ih =>
    have h1 : replaceAll pr.1 pr.2 t = t :=
      replaceAll_of_no_occ pr.2 (hno pr (List.mem_cons_self pr rest))
    rw [applyRules_cons, h1]
    exact ih (fun q hq => hno q (List.mem_cons_of_mem pr hq))

/-- Occurrences of `p` transfer backwards through a block of rules whose
replacements are all overlap-free with `p`. -/
theorem applyRules_transfer {p : List Char} {h : Char} (hph : p.head? = some h) :
    ∀ (rules : List (List Char × List Char)),
      (∀ pr ∈ rules, h ∉ pr.2 ∧
        ∀ m, m < p.length → 1 ≤ m → ¬ p.drop m <+: pr.2 ∧ ¬ pr.2 <+: p.drop m) →
      ∀ t, p <:+: applyRules rules t → p <:+: t := by
  intro rules
  induction rules with
  | nil =>
    intro _ t hin
    exact hin
  | cons pr rest ih =>
    intro hc t hin
    rw [applyRules_cons] at hin
    have h2 := ih (fun q hq => hc q (List.mem_cons_of_mem pr hq)) _ hin
    exact replaceAll_transfer hph (hc pr (List.mem_cons_self pr rest)).1
      (hc pr (List.mem_cons_self pr rest)).2 h2

/-! ## Head-character arguments -/

/-- If the head character of `p` does not occur in `a`, no occurrence of `p`
can start within the `a` part of `a ++ x`. -/
theorem not_prefix_drop_of_head_notin {p : List Char} {h : Char}
    (hph : p.head? = some h) :
    ∀ (a : List Char), h ∉ a → ∀ (x : List Char) (i : Nat), i < a.length →
      ¬ p <+: ((a ++ x).drop i) := by
  intro a
  induction a with
  | nil =>
    intro _ x i hi
    simp at hi
  | cons c a2 ih =>
    intro ha x i hi hpre
    cases i with
    | zero =>
      simp only [List.cons_append, List.drop_zero] at hpre
      obtain ⟨hh, _⟩ := cons_prefix_head hph hpre
      exact ha (by rw [hh]; exact List.mem_cons_self c a2)
    | succ j =>
      rw [List.length_cons] at hi
      have hj : j < a2.length := by omega
      have hdrop : ((c :: a2) ++ x).drop (j + 1) = (a2 ++ x).drop j := by
        simp [List.cons_append]
      rw [hdrop] at hpre
      exact ih (fun hm => ha (List.mem_cons_of_mem c hm)) x j hj hpre

set_option maxHeartbeats 1600000 in
/-- C5.  Rule-order sensitivity: the `HartsysDatasetEditor.Client.Pages` rule
(listed first) rewrites the matching substring, and the later
`HartsysDatasetEditor.Client` rule — whose pattern is a strict prefix of the
earlier one — has no further effect on it, since its pattern no longer occurs
in the replacement text.  Input containing `HartsysDatasetEditor.Client.Pages`
therefore yields `DatasetStudio.ClientApp.Features.Datasets.Pages` in its
place. -/
theorem pages_rule_beats_client_rule :
    (∀ a b : List Char, ('H') ∉ a → ('H') ∉ b →
      update_content (a ++ ("HartsysDatasetEditor.Client.Pages").toList ++ b) =
        a ++ ("DatasetStudio.ClientApp.Features.Datasets.Pages").toList ++ b) ∧
    ¬ ("HartsysDatasetEditor.Client").toList <:+:
        ("DatasetStudio.ClientApp.Features.Datasets.Pages").toList := by
  constructor
  · intro a b ha hb
    have hph : (("HartsysDatasetEditor.Client.Pages").toList).head? = some ('H') := by decide
    have hrules : NAMESPACE_REPLACEMENTS =
        ((("HartsysDatasetEditor.Client.Pages").toList,
          ("DatasetStudio.ClientApp.Features.Datasets.Pages").toList) ::
         NAMESPACE_REPLACEMENTS.tail) := rfl
    have hsplit : update_content (a ++ ("HartsysDatasetEditor.Client.Pages").toList ++ b) =
        applyRules NAMESPACE_REPLACEMENTS.tail
          (replaceAll (("HartsysDatasetEditor.Client.Pages").toList)
            (("DatasetStudio.ClientApp.Features.Datasets.Pages").toList)
            (a ++ ("HartsysDatasetEditor.Client.Pages").toList ++ b)) := by
      rw [show update_content (a ++ ("HartsysDatasetEditor.Client.Pages").toList ++ b) =
            applyRules NAMESPACE_REPLACEMENTS
              (a ++ ("HartsysDatasetEditor.Client.Pages").toList ++ b) from rfl,
          hrules, applyRules_cons2]
      rfl
    rw [hsplit]
    have hleft : ∀ i, i < a.length →
        ¬ ("HartsysDatasetEditor.Client.Pages").toList <+:
          ((a ++ ("HartsysDatasetEditor.Client.Pages").toList ++ b).drop i) := by
      intro i hi
      have h0 := not_prefix_drop_of_head_notin hph a ha
        ((("HartsysDatasetEditor.Client.Pages").toList) ++ b) i hi
      rwa [← List.append_assoc] at h0
    have h1 := replaceAll_leftmost
      (("DatasetStudio.ClientApp.Features.Datasets.Pages").toList) (by decide) a b hleft
    have h2 : replaceAll (("HartsysDatasetEditor.Client.Pages").toList)
        (("DatasetStudio.ClientApp.Features.Datasets.Pages").toList) b = b :=
      replaceAll_of_no_occ _ (fun hin => hb (head_mem_of_occ hph hin))
    rw [h1, h2]
    apply applyRules_noop
    have hheads : ∀ pr ∈ NAMESPACE_REPLACEMENTS.tail, pr.1.head? = some ('H') := by decide
    have hmem : ('H') ∉
        a ++ ("DatasetStudio.ClientApp.Features.Datasets.Pages").toList ++ b := by
      intro hm
      rcases List.mem_append.mp hm with hm1 | hm2
      · rcases List.mem_append.mp hm1 with hma | hmr
        · exact ha hma
        · exact absurd hmr (by decide)
      · exact hb hm2
    intro pr hm hin
    exact hmem (head_mem_of_occ (hheads pr hm) hin)
  · decide

/-- Witness for C5 on a concrete file body. -/
theorem pages_rule_beats_client_rule_witness :
    update_content ((("namespace ").toList) ++
        ("HartsysDatasetEditor.Client.Pages").toList ++ ((";").toList)) =
      (("namespace ").toList) ++
        ("DatasetStudio.ClientApp.Features.Datasets.Pages").toList ++ ((";").toList) :=
  pages_rule_beats_client_rule.1 _ _ (by decide) (by decide)

set_option maxHeartbeats 1600000 in
/-- C9.  The broad `HartsysDatasetEditor.Core.Services` rule (index 17) runs
before the three more specific rules for `...Services.Layouts`,
`...Services.Parsers` and `...Services.Providers` (indices 18-20), and after
it has run the broad pattern — hence also each specific pattern extending
it — occurs nowhere.  The three specific rules are therefore dead:
`update_content` equals the variant with them removed, and in particular
`HartsysDatasetEditor.Core.Services.Providers` is rewritten to
`DatasetStudio.Core.BusinessLogic.Providers`, never to
`DatasetStudio.Core.BusinessLogic.Modality`. -/
theorem coreServices_specific_rules_unreachable :
    (∀ s : List Char,
      (¬ ("HartsysDatasetEditor.Core.Services.Layouts").toList <:+:
          applyRules (NAMESPACE_REPLACEMENTS.take 18) s) ∧
      (¬ ("HartsysDatasetEditor.Core.Services.Parsers").toList <:+:
          applyRules (NAMESPACE_REPLACEMENTS.take 18) s) ∧
      (¬ ("HartsysDatasetEditor.Core.Services.Providers").toList <:+:
          applyRules (NAMESPACE_REPLACEMENTS.take 18) s) ∧
      update_content s = update_content_noSpecific s) ∧
    update_content (("using HartsysDatasetEditor.Core.Services.Providers;").toList) =
      ("using DatasetStudio.Core.BusinessLogic.Providers;").toList := by
  have hph : (("HartsysDatasetEditor.Core.Services").toList).head? = some ('H') := by decide
  have key : ∀ s : List Char, ¬ ("HartsysDatasetEditor.Core.Services").toList <:+:
      applyRules (NAMESPACE_REPLACEMENTS.take 18) s := by
    intro s
    have hsplit : applyRules (NAMESPACE_REPLACEMENTS.take 18) s =
        replaceAll (("HartsysDatasetEditor.Core.Services").toList)
          (("DatasetStudio.Core.BusinessLogic").toList)
          (applyRules (NAMESPACE_REPLACEMENTS.take 17) s) := by
      rw [show NAMESPACE_REPLACEMENTS.take 18 = NAMESPACE_REPLACEMENTS.take 17 ++
            [((("HartsysDatasetEditor.Core.Services").toList),
              (("DatasetStudio.Core.BusinessLogic").toList))] from rfl,
          applyRules_append, applyRules_cons2, applyRules_nil]
    rw [hsplit]
    exact replaceAll_no_occurrence hph (by decide) (by decide) _
  constructor
  · intro s
    have hK := key s
    have hpreL : ("HartsysDatasetEditor.Core.Services").toList <+:
        ("HartsysDatasetEditor.Core.Services.Layouts").toList := by decide
    have hpreP : ("HartsysDatasetEditor.Core.Services").toList <+:
        ("HartsysDatasetEditor.Core.Services.Parsers").toList := by decide
    have hprePr : ("HartsysDatasetEditor.Core.Services").toList <+:
        ("HartsysDatasetEditor.Core.Services.Providers").toList := by decide
    have hinfL := hpreL.isInfix
    have hinfP := hpreP.isInfix
    have hinfPr := hprePr.isInfix
    have hL : ¬ ("HartsysDatasetEditor.Core.Services.Layouts").toList <:+:
        applyRules (NAMESPACE_REPLACEMENTS.take 18) s :=
      fun hin => hK (hinfL.trans hin)
    have hP : ¬ ("HartsysDatasetEditor.Core.Services.Parsers").toList <:+:
        applyRules (NAMESPACE_REPLACEMENTS.take 18) s :=
      fun hin => hK (hinfP.trans hin)
    have hPr : ¬ ("HartsysDatasetEditor.Core.Services.Providers").toList <:+:
        applyRules (NAMESPACE_REPLACEMENTS.take 18) s :=
      fun hin => hK (hinfPr.trans hin)
    refine ⟨hL, hP, hPr, ?_⟩
    have e1 : update_content s = applyRules (NAMESPACE_REPLACEMENTS.drop 18)
        (applyRules (NAMESPACE_REPLACEMENTS.take 18) s) := by
      rw [← applyRules_append, List.take_append_drop]
      rfl
    have e2 : update_content_noSpecific s = applyRules (NAMESPACE_REPLACEMENTS.drop 21)
        (applyRules (NAMESPACE_REPLACEMENTS.take 18) s) := by
      rw [show update_content_noSpecific s =
            applyRules (NAMESPACE_REPLACEMENTS.take 18 ++ NAMESPACE_REPLACEMENTS.drop 21) s
          from rfl, applyRules_append]
    have hd : NAMESPACE_REPLACEMENTS.drop 18 =
        ((("HartsysDatasetEditor.Core.Services.Layouts").toList,
          ("DatasetStudio.Core.BusinessLogic.Layouts").toList) ::
         (("HartsysDatasetEditor.Core.Services.Parsers").toList,
          ("DatasetStudio.Core.BusinessLogic.Parsers").toList) ::
         (("HartsysDatasetEditor.Core.Services.Providers").toList,
          ("DatasetStudio.Core.BusinessLogic.Modality").toList) ::
         NAMESPACE_REPLACEMENTS.drop 21) := rfl
    rw [e1, e2, hd, applyRules_cons2,
        replaceAll_of_no_occ (("DatasetStudio.Core.BusinessLogic.Layouts").toList) hL,
        applyRules_cons2,
        replaceAll_of_no_occ (("DatasetStudio.Core.BusinessLogic.Parsers").toList) hP,
        applyRules_cons2,
        replaceAll_of_no_occ (("DatasetStudio.Core.BusinessLogic.Modality").toList) hPr]
  · decide

/-- Witness for C9 on a concrete input containing the Providers namespace. -/
theorem coreServices_specific_rules_unreachable_witness :
    update_content (("namespace HartsysDatasetEditor.Core.Services.Providers").toList) =
      update_content_noSpecific
        (("namespace HartsysDatasetEditor.Core.Services.Providers").toList) :=
  (coreServices_specific_rules_unreachable.1 _).2.2.2

set_option maxHeartbeats 1600000 in
/-- After a full pass of `update_content`, the pattern
`HartsysDatasetEditor.Client` occurs nowhere: rule 13 removes it and no later
rule can recreate it. -/
theorem client_gone (s : List Char) :
    ¬ ("HartsysDatasetEditor.Client").toList <:+: update_content s := by
  have hph : (("HartsysDatasetEditor.Client").toList).head? = some ('H') := by decide
  have h14 : applyRules (NAMESPACE_REPLACEMENTS.take 14) s =
      replaceAll (("HartsysDatasetEditor.Client").toList)
        (("DatasetStudio.ClientApp").toList)
        (applyRules (NAMESPACE_REPLACEMENTS.take 13) s) := by
    rw [show NAMESPACE_REPLACEMENTS.take 14 = NAMESPACE_REPLACEMENTS.take 13 ++
          [((("HartsysDatasetEditor.Client").toList),
            (("DatasetStudio.ClientApp").toList))] from rfl,
        applyRules_append, applyRules_cons2, applyRules_nil]
  have hno : ¬ ("HartsysDatasetEditor.Client").toList <:+:
      applyRules (NAMESPACE_REPLACEMENTS.take 14) s := by
    rw [h14]
    exact replaceAll_no_occurrence hph (by decide) (by decide) _
  have e1 : update_content s = applyRules (NAMESPACE_REPLACEMENTS.drop 14)
      (applyRules (NAMESPACE_REPLACEMENTS.take 14) s) := by
    rw [← applyRules_append, List.take_append_drop]
    rfl
  intro hin
  rw [e1] at hin
  exact hno (applyRules_transfer hph (NAMESPACE_REPLACEMENTS.drop 14) (by decide) _ hin)

set_option maxHeartbeats 1600000 in
/-- After a full pass of `update_content`, the pattern
`HartsysDatasetEditor.Core` occurs nowhere: rule 21 removes it and the final
Contracts rule cannot recreate it. -/
theorem core_gone (s : List Char) :
    ¬ ("HartsysDatasetEditor.Core").toList <:+: update_content s := by
  have hph : (("HartsysDatasetEditor.Core").toList).head? = some ('H') := by decide
  have h22 : applyRules (NAMESPACE_REPLACEMENTS.take 22) s =
      replaceAll (("HartsysDatasetEditor.Core").toList)
        (("DatasetStudio.Core").toList)
        (applyRules (NAMESPACE_REPLACEMENTS.take 21) s) := by
    rw [show NAMESPACE_REPLACEMENTS.take 22 = NAMESPACE_REPLACEMENTS.take 21 ++
          [((("HartsysDatasetEditor.Core").toList),
            (("DatasetStudio.Core").toList))] from rfl,
        applyRules_append, applyRules_cons2, applyRules_nil]
  have hno : ¬ ("HartsysDatasetEditor.Core").toList <:+:
      applyRules (NAMESPACE_REPLACEMENTS.take 22) s := by
    rw [h22]
    exact replaceAll_no_occurrence hph (by decide) (by decide) _
  have e1 : update_content s = applyRules (NAMESPACE_REPLACEMENTS.drop 22)
      (applyRules (NAMESPACE_REPLACEMENTS.take 22) s) := by
    rw [← applyRules_append, List.take_append_drop]
    rfl
  intro hin
  rw [e1] at hin
  exact hno (applyRules_transfer hph (NAMESPACE_REPLACEMENTS.drop 22) (by decide) _ hin)

set_option maxHeartbeats 1600000 in
/-- After a full pass of `update_content`, the pattern
`HartsysDatasetEditor.Contracts` occurs nowhere: the final rule removes it. -/
theorem contracts_gone (s : List Char) :
    ¬ ("HartsysDatasetEditor.Contracts").toList <:+: update_content s := by
  have hph : (("HartsysDatasetEditor.Contracts").toList).head? = some ('H') := by decide
  have h23 : update_content s =
      replaceAll (("HartsysDatasetEditor.Contracts").toList)
        (("DatasetStudio.DTO").toList)
        (applyRules (NAMESPACE_REPLACEMENTS.take 22) s) := by
    rw [show update_content s = applyRules (NAMESPACE_REPLACEMENTS.take 22 ++
          [((("HartsysDatasetEditor.Contracts").toList),
            (("DatasetStudio.DTO").toList))]) s from rfl,
        applyRules_append, applyRules_cons2, applyRules_nil]
  rw [h23]
  exact replaceAll_no_occurrence hph (by decide) (by decide) _

set_option maxHeartbeats 1600000 in
/-- C10.  `update_content` is idempotent: after one pass no rule pattern still
occurs (every pattern extends one of `HartsysDatasetEditor.Client`,
`HartsysDatasetEditor.Core` or `HartsysDatasetEditor.Contracts`, all of which
are gone and never reintroduced), so a second pass changes nothing. -/
theorem update_content_idempotent (s : List Char) :
    update_content (update_content s) = update_content s := by
  have hcover : ∀ pr ∈ NAMESPACE_REPLACEMENTS,
      ("HartsysDatasetEditor.Client").toList <+: pr.1 ∨
      ("HartsysDatasetEditor.Core").toList <+: pr.1 ∨
      ("HartsysDatasetEditor.Contracts").toList <+: pr.1 := by decide
  show applyRules NAMESPACE_REPLACEMENTS (update_content s) = update_content s
  apply applyRules_noop
  intro pr hm hin
  rcases hcover pr hm with h1 | h2 | h3
  · have h1b := h1.isInfix
    exact client_gone s (h1b.trans hin)
  · have h2b := h2.isInfix
    exact core_gone s (h2b.trans hin)
  · have h3b := h3.isInfix
    exact contracts_gone s (h3b.trans hin)

/-! ## Path facts -/

/-- Source paths and destination paths live in disjoint trees: the two base
prefixes differ at character 59 (`HartsysDatasetEditor.Client` vs
`ClientApp`). -/
theorem srcPath_ne_destPath (a b : String) : srcPath a ≠ destPath b := by
  intro h
  have hd : (srcPath a).data = (destPath b).data := congrArg String.data h
  have h1 : (srcPath a).data = (SRC_BASE ++ "\\").data ++ a.data := by
    show ((SRC_BASE ++ "\\") ++ a).data = _
    exact String.data_append _ _
  have h2 : (destPath b).data = (DEST_BASE ++ "\\").data ++ b.data := by
    show ((DEST_BASE ++ "\\") ++ b).data = _
    exact String.data_append _ _
  rw [h1, h2] at hd
  have h3 : ((SRC_BASE ++ "\\").data ++ a.data)[59]? =
      ((DEST_BASE ++ "\\").data ++ b.data)[59]? := by rw [hd]
  rw [List.getElem?_append_left (by decide), List.getElem?_append_left (by decide)] at h3
  have h4 : (SRC_BASE ++ "\\").data[59]? = some ('H') := by decide
  have h5 : (DEST_BASE ++ "\\").data[59]? = some ('C') := by decide
  rw [h4, h5] at h3
  exact absurd h3 (by decide)

/-- Distinct destination-relative paths give distinct absolute paths. -/
theorem destPath_injective {a b : String} (h : destPath a = destPath b) : a = b := by
  have hd : (destPath a).data = (destPath b).data := congrArg String.data h
  have h1 : (destPath a).data = (DEST_BASE ++ "\\").data ++ a.data := by
    show ((DEST_BASE ++ "\\") ++ a).data = _
    exact String.data_append _ _
  have h2 : (destPath b).data = (DEST_BASE ++ "\\").data ++ b.data := by
    show ((DEST_BASE ++ "\\") ++ b).data = _
    exact String.data_append _ _
  rw [h1, h2] at hd
  have h3 : a.data = b.data := List.append_cancel_left hd
  cases a
  cases b
  exact congrArg String.mk h3

/-- Writing a destination file never changes which source files exist. -/
theorem updateFS_srcPath (fs : FS) (d : String) (v : List Char) (s : String) :
    updateFS fs (destPath d) v (srcPath s) = fs (srcPath s) := by
  unfold updateFS
  rw [if_neg (srcPath_ne_destPath s d)]

/-! ## `migrate_file`: per-mapping behaviour -/

/-- C1.  When the source file exists with content `c` and `migrate_file`
returns `true`, the destination file exists afterwards with content
`update_content c`; the resulting filesystem is exactly the old one with the
destination path overwritten (any previously existing destination file is
replaced). -/
theorem migrate_file_success (env : Env) (fs : FS) (s d : String) (c : List Char)
    (fs2 : FS) (log : List String)
    (hsrc : fs (srcPath s) = some c)
    (hret : migrate_file env fs s d = .ok true fs2 log) :
    fs2 (destPath d) = some (update_content c) ∧
    fs2 = updateFS fs (destPath d) (update_content c) := by
  simp only [migrate_file, hsrc] at hret
  by_cases h1 : env.mkdirFails (dirname (destPath d))
  · rw [if_pos h1] at hret
    exact absurd hret (by simp)
  · rw [if_neg h1] at hret
    by_cases h2 : env.readFails (srcPath s)
    · rw [if_pos h2] at hret
      simp at hret
    · rw [if_neg h2] at hret
      by_cases h3 : env.writeFails (destPath d)
      · rw [if_pos h3] at hret
        simp at hret
      · rw [if_neg h3] at hret
        injection hret with hb hfs hlog
        refine ⟨?_, hfs.symm⟩
        rw [← hfs]
        unfold updateFS
        rw [if_pos rfl]

/-- Witness for C1: migrating the first mapping over a concrete one-file
source tree. -/
theorem migrate_file_success_witness :
    updateFS oneFileFS (destPath ("Features/Datasets/Pages/DatasetLibrary.razor.cs"))
        (update_content (("namespace HartsysDatasetEditor.Client.Pages;").toList))
        (destPath ("Features/Datasets/Pages/DatasetLibrary.razor.cs")) =
      some (update_content (("namespace HartsysDatasetEditor.Client.Pages;").toList)) ∧
    updateFS oneFileFS (destPath ("Features/Datasets/Pages/DatasetLibrary.razor.cs"))
        (update_content (("namespace HartsysDatasetEditor.Client.Pages;").toList)) =
      updateFS oneFileFS (destPath ("Features/Datasets/Pages/DatasetLibrary.razor.cs"))
        (update_content (("namespace HartsysDatasetEditor.Client.Pages;").toList)) :=
  migrate_file_success benignEnv oneFileFS ("Pages/MyDatasets.razor.cs")
    ("Features/Datasets/Pages/DatasetLibrary.razor.cs")
    (("namespace HartsysDatasetEditor.Client.Pages;").toList)
    (updateFS oneFileFS (destPath ("Features/Datasets/Pages/DatasetLibrary.razor.cs"))
      (update_content (("namespace HartsysDatasetEditor.Client.Pages;").toList)))
    (["  [OK] " ++ "Pages/MyDatasets.razor.cs" ++ " -> " ++
      "Features/Datasets/Pages/DatasetLibrary.razor.cs"])
    (by rfl) (by rfl)

/-- Helper: behaviour of `migrate_file` on a missing source. -/
theorem migrate_file_skip (env : Env) (fs : FS) (s d : String)
    (hsrc : fs (srcPath s) = none) :
    migrate_file env fs s d = .ok false fs ["  [SKIP] Source not found: " ++ s] := by
  simp only [migrate_file, hsrc]

/-- C3.  When the source file does not exist, `migrate_file` logs exactly one
skip line naming the relative source path, returns `false`, and leaves the
filesystem untouched (no destination file is created or modified). -/
theorem migrate_file_missing_source (env : Env) (fs : FS) (s d : String)
    (hsrc : fs (srcPath s) = none) :
    migrate_file env fs s d = .ok false fs ["  [SKIP] Source not found: " ++ s] :=
  migrate_file_skip env fs s d hsrc

/-- Witness for C3 on the empty source tree. -/
theorem migrate_file_missing_source_witness :
    migrate_file benignEnv (fun _ => none) ("Pages/MyDatasets.razor.cs")
      ("Features/Datasets/Pages/DatasetLibrary.razor.cs") =
      .ok false (fun _ => none)
        ["  [SKIP] Source not found: " ++ "Pages/MyDatasets.razor.cs"] :=
  migrate_file_missing_source benignEnv (fun _ => none) _ _ rfl

/-- C2 counterexample: with the first mapping's source present and
`os.makedirs` failing on its destination directory, `migrate_file` propagates
the exception to the caller instead of returning `false`. -/
theorem migrate_file_raises_cex :
    migrate_file mkdirFailEnv twoFileFS ("Pages/MyDatasets.razor.cs")
      ("Features/Datasets/Pages/DatasetLibrary.razor.cs") = .raised twoFileFS := by
  rfl

/-- C2 amended.  `migrate_file` never raises unless the unguarded
`os.makedirs` call fails: when directory creation succeeds it always returns
a boolean, a read failure is caught and converted to an error line plus
`false`, and a write failure likewise; only a makedirs failure (with the
source present) escapes as an exception. -/
theorem migrate_file_exception_behaviour :
    (∀ (env : Env) (fs : FS) (s d : String),
      env.mkdirFails (dirname (destPath d)) = false →
      ∃ b fs2 log, migrate_file env fs s d = .ok b fs2 log) ∧
    (∀ (env : Env) (fs : FS) (s d : String) (fs2 : FS),
      migrate_file env fs s d = .raised fs2 →
      env.mkdirFails (dirname (destPath d)) = true) ∧
    (∀ (env : Env) (fs : FS) (s d : String) (c : List Char),
      fs (srcPath s) = some c →
      env.mkdirFails (dirname (destPath d)) = false →
      env.readFails (srcPath s) = true →
      migrate_file env fs s d = .ok false fs ["  [ERROR] Failed to read " ++ s]) ∧
    (∀ (env : Env) (fs : FS) (s d : String) (c : List Char),
      fs (srcPath s) = some c →
      env.mkdirFails (dirname (destPath d)) = false →
      env.readFails (srcPath s) = false →
      env.writeFails (destPath d) = true →
      migrate_file env fs s d = .ok false fs ["  [ERROR] Failed to write " ++ d]) := by
  refine ⟨?_, ?_, ?_, ?_⟩
  · intro env fs s d h1
    cases hx : fs (srcPath s) with
    | none =>
      exact ⟨false, fs, ["  [SKIP] Source not found: " ++ s], by simp [migrate_file, hx]⟩
    | some c =>
      by_cases h2 : env.readFails (srcPath s)
      · exact ⟨false, fs, ["  [ERROR] Failed to read " ++ s],
          by simp [migrate_file, hx, h1, h2]⟩
      · by_cases h3 : env.writeFails (destPath d)
        · exact ⟨false, fs, ["  [ERROR] Failed to write " ++ d],
            by simp [migrate_file, hx, h1, h2, h3]⟩
        · exact ⟨true, updateFS fs (destPath d) (update_content c),
            ["  [OK] " ++ s ++ " -> " ++ d],
            by simp [migrate_file, hx, h1, h2, h3]⟩
  · intro env fs s d fs2 hr
    by_contra hmk
    have h1 : env.mkdirFails (dirname (destPath d)) = false := by
      cases hbv : env.mkdirFails (dirname (destPath d))
      · rfl
      · exact absurd hbv hmk
    cases hx : fs (srcPath s) with
    | none => simp [migrate_file, hx] at hr
    | some c =>
      simp only [migrate_file, hx, h1] at hr
      by_cases h2 : env.readFails (srcPath s)
      · rw [if_neg (by simp), if_pos h2] at hr
        simp at hr
      · rw [if_neg (by simp), if_neg h2] at hr
        by_cases h3 : env.writeFails (destPath d)
        · rw [if_pos h3] at hr
          simp at hr
        · rw [if_neg h3] at hr
          simp at hr
  · intro env fs s d c hx h1 h2
    simp [migrate_file, hx, h1, h2]
  · intro env fs s d c hx h1 h2 h3
    simp [migrate_file, hx, h1, h2, h3]

/-- Witness for the amended C2: a successful call returns a boolean under a
benign environment, and the concrete raising call indeed has a failing
makedirs oracle. -/
theorem migrate_file_exception_behaviour_witness :
    (∃ b fs2 log, migrate_file benignEnv twoFileFS ("Pages/MyDatasets.razor.cs")
      ("Features/Datasets/Pages/DatasetLibrary.razor.cs") = .ok b fs2 log) ∧
    mkdirFailEnv.mkdirFails
      (dirname (destPath ("Features/Datasets/Pages/DatasetLibrary.razor.cs"))) = true :=
  ⟨migrate_file_exception_behaviour.1 benignEnv twoFileFS _ _ rfl,
   migrate_file_exception_behaviour.2.1 mkdirFailEnv twoFileFS
     ("Pages/MyDatasets.razor.cs") ("Features/Datasets/Pages/DatasetLibrary.razor.cs")
     twoFileFS (by rfl)⟩

/-! ## The main loop -/

theorem mainGo_cons_true (env : Env) (m : String × String) (ms : List (String × String))
    (fs : FS) (s f : Nat) (log : List String) (fs2 : FS) (l : List String)
    (h : migrate_file env fs m.1 m.2 = .ok true fs2 l) :
    mainGo env (m :: ms) fs s f log = mainGo env ms fs2 (s + 1) f (log ++ l) := by
  simp only [mainGo]
  rw [h]

theorem mainGo_cons_false (env : Env) (m : String × String) (ms : List (String × String))
    (fs : FS) (s f : Nat) (log : List String) (fs2 : FS) (l : List String)
    (h : migrate_file env fs m.1 m.2 = .ok false fs2 l) :
    mainGo env (m :: ms) fs s f log = mainGo env ms fs2 s (f + 1) (log ++ l) := by
  simp only [mainGo]
  rw [h]

theorem mainGo_cons_raised (env : Env) (m : String × String) (ms : List (String × String))
    (fs : FS) (s f : Nat) (log : List String) (fs2 : FS)
    (h : migrate_file env fs m.1 m.2 = .raised fs2) :
    mainGo env (m :: ms) fs s f log = .raised fs2 log := by
  simp only [mainGo]
  rw [h]

/-- Helper for C2/C7: with a working `os.makedirs`, `migrate_file` always
returns a boolean. -/
theorem migrate_file_no_raise (env : Env) (fs : FS) (s d : String)
    (h1 : env.mkdirFails (dirname (destPath d)) = false) :
    ∃ b fs2 log, migrate_file env fs s d = .ok b fs2 log := by
  cases hx : fs (srcPath s) with
  | none =>
    exact ⟨false, fs, ["  [SKIP] Source not found: " ++ s], by simp [migrate_file, hx]⟩
  | some c =>
    by_cases h2 : env.readFails (srcPath s)
    · exact ⟨false, fs, ["  [ERROR] Failed to read " ++ s],
        by simp [migrate_file, hx, h1, h2]⟩
    · by_cases h3 : env.writeFails (destPath d)
      · exact ⟨false, fs, ["  [ERROR] Failed to write " ++ d],
          by simp [migrate_file, hx, h1, h2, h3]⟩
      · exact ⟨true, updateFS fs (destPath d) (update_content c),
          ["  [OK] " ++ s ++ " -> " ++ d],
          by simp [migrate_file, hx, h1, h2, h3]⟩

theorem mainGo_no_raise (env : Env) (hmk : ∀ p, env.mkdirFails p = false) :
    ∀ (ms : List (String × String)) (fs : FS) (s f : Nat) (log : List String),
      ∃ s2 f2 fs2 log2, mainGo env ms fs s f log = .finished s2 f2 fs2 log2 := by
  intro ms
  induction ms with
  | nil =>
    intro fs s f log
    exact ⟨s, f, fs, log ++ [summaryLine s f], rfl⟩
  | cons m rest ih =>
    intro fs s f log
    obtain ⟨b, fs2, l, hok⟩ := migrate_file_no_raise env fs m.1 m.2 (hmk _)
    cases b
    · rw [mainGo_cons_false env m rest fs s f log fs2 l hok]
      exact ih fs2 s (f + 1) (log ++ l)
    · rw [mainGo_cons_true env m rest fs s f log fs2 l hok]
      exact ih fs2 (s + 1) f (log ++ l)

/-! ## Counting -/

theorem presentCount_cons_none {fs : FS} {m : String × String}
    (ms : List (String × String)) (hx : fs (srcPath m.1) = none) :
    presentCount fs (m :: ms) = presentCount fs ms := by
  simp [presentCount, List.filter_cons, hx]

theorem missingCount_cons_none {fs : FS} {m : String × String}
    (ms : List (String × String)) (hx : fs (srcPath m.1) = none) :
    missingCount fs (m :: ms) = missingCount fs ms + 1 := by
  simp [missingCount, List.filter_cons, hx]

theorem presentCount_cons_some {fs : FS} {m : String × String} {c : List Char}
    (ms : List (String × String)) (hx : fs (srcPath m.1) = some c) :
    presentCount fs (m :: ms) = presentCount fs ms + 1 := by
  simp [presentCount, List.filter_cons, hx]

theorem missingCount_cons_some {fs : FS} {m : String × String} {c : List Char}
    (ms : List (String × String)) (hx : fs (srcPath m.1) = some c) :
    missingCount fs (m :: ms) = missingCount fs ms := by
  simp [missingCount, List.filter_cons, hx]

theorem presentCount_congr {fs1 fs2 : FS} {ms : List (String × String)}
    (h : ∀ x : String × String, x ∈ ms → fs1 (srcPath x.1) = fs2 (srcPath x.1)) :
    presentCount fs1 ms = presentCount fs2 ms := by
  unfold presentCount
  congr 1
  apply List.filter_congr
  intro x hx
  rw [h x hx]

theorem missingCount_congr {fs1 fs2 : FS} {ms : List (String × String)}
    (h : ∀ x : String × String, x ∈ ms → fs1 (srcPath x.1) = fs2 (srcPath x.1)) :
    missingCount fs1 ms = missingCount fs2 ms := by
  unfold missingCount
  congr 1
  apply List.filter_congr
  intro x hx
  rw [h x hx]

theorem present_add_missing (fs : FS) (ms : List (String × String)) :
    presentCount fs ms + missingCount fs ms = ms.length := by
  induction ms with
  | nil => rfl
  | cons m rest ih =>
    cases hx : fs (srcPath m.1) with
    | none =>
      rw [presentCount_cons_none rest hx, missingCount_cons_none rest hx, List.length_cons]
      omega
    | some c =>
      rw [presentCount_cons_some rest hx, missingCount_cons_some rest hx, List.length_cons]
      omega

/-- The loop processes every mapping regardless of prior failures: when each
present source reads and writes cleanly, it finishes with one success per
present source and one failure per missing source. -/
theorem mainGo_counts (env : Env) :
    ∀ (ms : List (String × String)) (fs : FS) (s f : Nat) (log : List String),
      (∀ m ∈ ms, (fs (srcPath m.1)).isSome = true →
        env.mkdirFails (dirname (destPath m.2)) = false ∧
        env.readFails (srcPath m.1) = false ∧
        env.writeFails (destPath m.2) = false) →
      ∃ fs2 plog, mainGo env ms fs s f log =
        .finished (s + presentCount fs ms) (f + missingCount fs ms) fs2
          (log ++ plog ++
            [summaryLine (s + presentCount fs ms) (f + missingCount fs ms)]) := by
  intro ms
  induction ms with
  | nil =>
    intro fs s f log _
    refine ⟨fs, [], ?_⟩
    simp [mainGo, presentCount, missingCount]
  | cons m rest ih =>
    intro fs s f log hben
    cases hx : fs (srcPath m.1) with
    | none =>
      have hstep := migrate_file_skip env fs m.1 m.2 hx
      obtain ⟨fs2, plog, hrest⟩ := ih fs s (f + 1)
        (log ++ ["  [SKIP] Source not found: " ++ m.1])
        (fun m2 hm2 => hben m2 (List.mem_cons_of_mem m hm2))
      refine ⟨fs2, ["  [SKIP] Source not found: " ++ m.1] ++ plog, ?_⟩
      rw [mainGo_cons_false env m rest fs s f log fs _ hstep,
          presentCount_cons_none rest hx, missingCount_cons_none rest hx,
          show f + (missingCount fs rest + 1) = f + 1 + missingCount fs rest from by omega,
          show log ++ (["  [SKIP] Source not found: " ++ m.1] ++ plog) =
            (log ++ ["  [SKIP] Source not found: " ++ m.1]) ++ plog from by
            rw [List.append_assoc]]
      exact hrest
    | some c =>
      have hben1 := hben m (List.mem_cons_self m rest) (by rw [hx]; rfl)
      have hstep : migrate_file env fs m.1 m.2 =
          .ok true (updateFS fs (destPath m.2) (update_content c))
            ["  [OK] " ++ m.1 ++ " -> " ++ m.2] := by
        simp [migrate_file, hx, hben1.1, hben1.2.1, hben1.2.2]
      have hlook : ∀ x : String × String, x ∈ rest →
          (updateFS fs (destPath m.2) (update_content c)) (srcPath x.1) = fs (srcPath x.1) :=
        fun x _ => updateFS_srcPath fs m.2 (update_content c) x.1
      obtain ⟨fs2, plog, hrest⟩ := ih (updateFS fs (destPath m.2) (update_content c))
        (s + 1) f (log ++ ["  [OK] " ++ m.1 ++ " -> " ++ m.2])
        (fun m2 hm2 hsome => hben m2 (List.mem_cons_of_mem m hm2)
          (by rw [← hlook m2 hm2]; exact hsome))
      rw [presentCount_congr hlook, missingCount_congr hlook] at hrest
      refine ⟨fs2, ["  [OK] " ++ m.1 ++ " -> " ++ m.2] ++ plog, ?_⟩
      rw [mainGo_cons_true env m rest fs s f log _ _ hstep,
          presentCount_cons_some rest hx, missingCount_cons_some rest hx,
          show s + (presentCount fs rest + 1) = s + 1 + presentCount fs rest from by omega,
          show log ++ (["  [OK] " ++ m.1 ++ " -> " ++ m.2] ++ plog) =
            (log ++ ["  [OK] " ++ m.1 ++ " -> " ++ m.2]) ++ plog from by
            rw [List.append_assoc]]
      exact hrest

/-- C6.  A run over the `N = FILE_MAPPINGS.length` mappings in which the `M`
mappings with missing sources fail and the rest read and write successfully
processes every mapping and reports exactly `N - M` succeeded and `M` failed
in the final summary line, with the two counts summing to `N`. -/
theorem main_loop_counts (env : Env) (fs : FS)
    (hben : ∀ m ∈ FILE_MAPPINGS, (fs (srcPath m.1)).isSome = true →
      env.mkdirFails (dirname (destPath m.2)) = false ∧
      env.readFails (srcPath m.1) = false ∧
      env.writeFails (destPath m.2) = false) :
    ∃ fs2 plog, runMain env fs =
      .finished (FILE_MAPPINGS.length - missingCount fs FILE_MAPPINGS)
        (missingCount fs FILE_MAPPINGS) fs2
        (plog ++ [summaryLine (FILE_MAPPINGS.length - missingCount fs FILE_MAPPINGS)
          (missingCount fs FILE_MAPPINGS)]) ∧
      FILE_MAPPINGS.length - missingCount fs FILE_MAPPINGS + missingCount fs FILE_MAPPINGS =
        FILE_MAPPINGS.length := by
  obtain ⟨fs2, plog, h⟩ := mainGo_counts env FILE_MAPPINGS fs 0 0 [] hben
  have hsum := present_add_missing fs FILE_MAPPINGS
  have hpe : presentCount fs FILE_MAPPINGS =
      FILE_MAPPINGS.length - missingCount fs FILE_MAPPINGS := by omega
  simp only [Nat.zero_add, List.nil_append] at h
  rw [hpe] at h
  refine ⟨fs2, plog, ?_, by omega⟩
  show mainGo env FILE_MAPPINGS fs 0 0 [] = _
  exact h

/-- Witness for C6: the concrete one-file source tree under a benign
environment. -/
theorem main_loop_counts_witness :
    ∃ fs2 plog, runMain benignEnv oneFileFS =
      .finished (FILE_MAPPINGS.length - missingCount oneFileFS FILE_MAPPINGS)
        (missingCount oneFileFS FILE_MAPPINGS) fs2
        (plog ++ [summaryLine
          (FILE_MAPPINGS.length - missingCount oneFileFS FILE_MAPPINGS)
          (missingCount oneFileFS FILE_MAPPINGS)]) ∧
      FILE_MAPPINGS.length - missingCount oneFileFS FILE_MAPPINGS +
          missingCount oneFileFS FILE_MAPPINGS = FILE_MAPPINGS.length :=
  main_loop_counts benignEnv oneFileFS (fun _ _ _ => ⟨rfl, rfl, rfl⟩)

/-- C7 counterexample: a run in which `os.makedirs` fails exits with status 1,
not 0 — the failure is reported through the exit code, contradicting
"always exits with success status". -/
theorem exit_code_nonzero_cex :
    exitCode mkdirFailEnv twoFileFS = 1 ∧ exitCode mkdirFailEnv twoFileFS ≠ 0 := by
  have h : exitCode mkdirFailEnv twoFileFS = 1 := by rfl
  refine ⟨h, ?_⟩
  rw [h]
  decide

/-- C7 amended.  Whenever no `os.makedirs` call fails, the process exits with
success status regardless of per-file missing/read/write failures; only an
uncaught makedirs exception produces a nonzero exit code. -/
theorem exit_success_when_no_mkdir_failure (env : Env) (fs : FS)
    (hmk : ∀ p, env.mkdirFails p = false) : exitCode env fs = 0 := by
  obtain ⟨s2, f2, fs2, log2, h⟩ := mainGo_no_raise env hmk FILE_MAPPINGS fs 0 0 []
  unfold exitCode runMain runMainOn
  rw [h]

/-- Witness for the amended C7: read and write failures alone never change the
exit status. -/
theorem exit_success_when_no_mkdir_failure_witness : exitCode benignEnv twoFileFS = 0 :=
  exit_success_when_no_mkdir_failure benignEnv twoFileFS (fun _ => rfl)

/-! ## Order independence -/

/-- One loop step only writes `some v` at its own destination path. -/
theorem stepFS_eq (env : Env) (m : String × String) (fs : FS) :
    stepFS env m fs =
      match writeResult env fs m with
      | some v => updateFS fs (destPath m.2) v
      | none => fs := by
  unfold stepFS migrate_file writeResult
  cases hx : fs (srcPath m.1) with
  | none => rfl
  | some c =>
    by_cases h1 : env.mkdirFails (dirname (destPath m.2))
    · simp [h1]
    · by_cases h2 : env.readFails (srcPath m.1)
      · simp [h1, h2]
      · by_cases h3 : env.writeFails (destPath m.2)
        · simp [h1, h2, h3]
        · simp [h1, h2, h3]

/-- What a mapping writes depends on the filesystem only through its own
source path. -/
theorem writeResult_congr (env : Env) {fs1 fs2 : FS} (m : String × String)
    (h : fs1 (srcPath m.1) = fs2 (srcPath m.1)) :
    writeResult env fs1 m = writeResult env fs2 m := by
  unfold writeResult
  rw [h]

/-- Loop steps for mappings with distinct destinations commute: sources are
never overwritten (they live in the source tree) and the two writes hit
different paths. -/
theorem stepFS_comm (env : Env) (x y : String × String) (fs : FS)
    (hd : destPath x.2 ≠ destPath y.2) :
    stepFS env x (stepFS env y fs) = stepFS env y (stepFS env x fs) := by
  have hlx : (stepFS env y fs) (srcPath x.1) = fs (srcPath x.1) := by
    rw [stepFS_eq]
    cases writeResult env fs y with
    | none => rfl
    | some v => exact updateFS_srcPath fs y.2 v x.1
  have hly : (stepFS env x fs) (srcPath y.1) = fs (srcPath y.1) := by
    rw [stepFS_eq]
    cases writeResult env fs x with
    | none => rfl
    | some v => exact updateFS_srcPath fs x.2 v y.1
  have hwx : writeResult env (stepFS env y fs) x = writeResult env fs x :=
    writeResult_congr env x hlx
  have hwy : writeResult env (stepFS env x fs) y = writeResult env fs y :=
    writeResult_congr env y hly
  rw [stepFS_eq env x (stepFS env y fs), stepFS_eq env y (stepFS env x fs),
      hwx, hwy, stepFS_eq env y fs, stepFS_eq env x fs]
  cases hx : writeResult env fs x with
  | none =>
    cases hy : writeResult env fs y with
    | none => rfl
    | some vy => rfl
  | some vx =>
    cases hy : writeResult env fs y with
    | none => rfl
    | some vy =>
      funext q
      show updateFS (updateFS fs (destPath y.2) vy) (destPath x.2) vx q =
        updateFS (updateFS fs (destPath x.2) vx) (destPath y.2) vy q
      unfold updateFS
      by_cases hqx : q = destPath x.2
      · rw [if_pos hqx, if_neg (by rw [hqx]; exact hd), if_pos hqx]
      · rw [if_neg hqx]
        by_cases hqy : q = destPath y.2
        · rw [if_pos hqy, if_pos hqy]
        · rw [if_neg hqy, if_neg hqy, if_neg hqx]

/-- With pairwise-distinct destinations, the final filesystem of the loop body
fold is invariant under permutation of the mapping list. -/
theorem runFS_perm (env : Env) :
    ∀ {l1 l2 : List (String × String)}, l1.Perm l2 →
      l2.Pairwise (fun a b => destPath a.2 ≠ destPath b.2) →
      ∀ fs, runFS env l1 fs = runFS env l2 fs := by
  intro l1 l2 hperm
  induction hperm with
  | nil =>
    intro _ fs
    rfl
  | cons x h ih =>
    intro hpw fs
    show runFS env _ (stepFS env x fs) = runFS env _ (stepFS env x fs)
    exact ih hpw.of_cons (stepFS env x fs)
  | swap a b l =>
    intro hpw fs
    have hd : destPath a.2 ≠ destPath b.2 :=
      (List.pairwise_cons.mp hpw).1 b (List.mem_cons_self b l)
    show runFS env l (stepFS env a (stepFS env b fs)) =
      runFS env l (stepFS env b (stepFS env a fs))
    rw [stepFS_comm env a b fs hd]
  | trans h12 h23 ih12 ih23 =>
    intro hpw fs
    have hpw2 := (h23.pairwise_iff (fun hab => Ne.symm hab)).mpr hpw
    rw [ih12 hpw2 fs, ih23 hpw fs]

/-- When `os.makedirs` never fails the loop completes and its final filesystem
is the fold of the per-mapping steps. -/
theorem mainGo_fs (env : Env) (hmk : ∀ p, env.mkdirFails p = false) :
    ∀ (ms : List (String × String)) (fs : FS) (s f : Nat) (log : List String),
      fsOf (mainGo env ms fs s f log) = runFS env ms fs := by
  intro ms
  induction ms with
  | nil =>
    intro fs s f log
    rfl
  | cons m rest ih =>
    intro fs s f log
    obtain ⟨b, fs2, l, hok⟩ := migrate_file_no_raise env fs m.1 m.2 (hmk _)
    have hstep : stepFS env m fs = fs2 := by
      unfold stepFS
      rw [hok]
    have hrun : runFS env (m :: rest) fs = runFS env rest fs2 := by
      show runFS env rest (stepFS env m fs) = runFS env rest fs2
      rw [hstep]
    cases b
    · rw [mainGo_cons_false env m rest fs s f log fs2 l hok, hrun]
      exact ih fs2 s (f + 1) (log ++ l)
    · rw [mainGo_cons_true env m rest fs s f log fs2 l hok, hrun]
      exact ih fs2 (s + 1) f (log ++ l)

/-- C8 amended.  The destination paths of `FILE_MAPPINGS` are pairwise
distinct and the source tree is disjoint from the destination tree, so —
provided no `os.makedirs` failure aborts the run — processing the mapping
table in any order produces the same final destination-file contents as
declaration order. -/
theorem run_order_independent (env : Env) (fs : FS) (l : List (String × String))
    (hmk : ∀ p, env.mkdirFails p = false) (hperm : l.Perm FILE_MAPPINGS) :
    fsOf (runMainOn env l fs) = fsOf (runMain env fs) ∧
    (FILE_MAPPINGS.map (fun m => destPath m.2)).Nodup ∧
    (∀ a b : String, srcPath a ≠ destPath b) := by
  have hnd : (FILE_MAPPINGS.map (fun m => m.2)).Nodup := by decide
  have hinj : Function.Injective destPath := fun _ _ h => destPath_injective h
  have hpairwise : FILE_MAPPINGS.Pairwise (fun a b => destPath a.2 ≠ destPath b.2) :=
    (List.pairwise_map.mp hnd).imp (fun hne heq => hne (destPath_injective heq))
  refine ⟨?_, ?_, srcPath_ne_destPath⟩
  · show fsOf (mainGo env l fs 0 0 []) = fsOf (mainGo env FILE_MAPPINGS fs 0 0 [])
    rw [mainGo_fs env hmk, mainGo_fs env hmk]
    exact runFS_perm env hperm hpairwise fs
  · have hmm : FILE_MAPPINGS.map (fun m => destPath m.2) =
        (FILE_MAPPINGS.map (fun m => m.2)).map destPath := by
      rw [List.map_map]
      rfl
    rw [hmm]
    exact hnd.map hinj

/-- Witness for the amended C8: a concrete permutation under a benign
environment yields the same final filesystem. -/
theorem run_order_independent_witness :
    fsOf (runMainOn benignEnv reorderedMappings twoFileFS) =
      fsOf (runMain benignEnv twoFileFS) :=
  (run_order_independent benignEnv twoFileFS reorderedMappings (fun _ => rfl)
    (by
      show ((FILE_MAPPINGS.take 6).reverse ++ FILE_MAPPINGS.drop 6).Perm FILE_MAPPINGS
      have h2 := List.take_append_drop 6 FILE_MAPPINGS
      exact List.Perm.trans
        ((List.reverse_perm (FILE_MAPPINGS.take 6)).append_right (FILE_MAPPINGS.drop 6))
        (by rw [h2]))).1

/-- C8 counterexample: when an `os.makedirs` failure aborts the run, the
processing order does change the final destination contents — in declaration
order the run dies on the first mapping before writing anything, while with
the first six mappings reversed the Settings page is migrated before the
crash. -/
theorem run_order_dependent_cex :
    reorderedMappings.Perm FILE_MAPPINGS ∧
    fsOf (runMainOn mkdirFailEnv reorderedMappings twoFileFS)
        (destPath ("Features/Settings/Pages/Settings.razor")) ≠
      fsOf (runMain mkdirFailEnv twoFileFS)
        (destPath ("Features/Settings/Pages/Settings.razor")) := by
  constructor
  · show ((FILE_MAPPINGS.take 6).reverse ++ FILE_MAPPINGS.drop 6).Perm FILE_MAPPINGS
    have h2 := List.take_append_drop 6 FILE_MAPPINGS
    exact List.Perm.trans
      ((List.reverse_perm (FILE_MAPPINGS.take 6)).append_right (FILE_MAPPINGS.drop 6))
      (by rw [h2])
  · intro h
    have hL : fsOf (runMainOn mkdirFailEnv reorderedMappings twoFileFS)
        (destPath ("Features/Settings/Pages/Settings.razor")) =
        some (update_content (("b").toList)) := by rfl
    have hR : fsOf (runMain mkdirFailEnv twoFileFS)
        (destPath ("Features/Settings/Pages/Settings.razor")) = none := by rfl
    rw [hL, hR] at h
    exact Option.noConfusion h

end MigrateClient
